import Mathlib

/-!
Verification of the DICE_ANALYZER chinchirorin engine (`src/main.py`,
`src/player.py`): the roll classifier (`DiceResult`), the tension
predicate (`is_tense_situation`), the reveal animation
(`animate_dice_roll`), and the round resolver
(`Game.player_roll` / `Game.dealer_roll` / `Game.resolve_round` /
`Game.play_round`), shallowly embedded in Lean.
-/

namespace DiceAnalyzer

/-- The role names of `DiceResult` (class-level string constants in the
source). -/
inductive Role where
  | HIFUMI
  | SHIGORO
  | PINZORO
  | ARASHI
  | ME
  | MENASHI
deriving DecidableEq, Repr

/-- The triple `(role, value, multiplier)` computed by
`DiceResult._evaluate` and stored on the instance. -/
structure Classification where
  role : Role
  value : ℕ
  multiplier : ℤ
deriving DecidableEq, Repr

/-- The Python builtin `sorted` on a list of naturals: ascending order. -/
def sortDice (l : List ℕ) : List ℕ :=
  List.insertionSort (· ≤ ·) l

/-- Embeds `DiceResult._evaluate` (src/main.py lines 52-78), operating on the
already-sorted dice `d`.  Python indexing `d[0]`, `d[1]`, `d[2]` raises
`IndexError` when the list is shorter than 3; that abnormal exit is
modelled as `none`. -/
def evaluate (d : List ℕ) : Option Classification :=
  if d = [1, 2, 3] then some ⟨Role.HIFUMI, 0, -2⟩
  else if d = [4, 5, 6] then some ⟨Role.SHIGORO, 7, 2⟩
  else if d = [1, 1, 1] then some ⟨Role.PINZORO, 10, 5⟩
  else
    match d.get? 0, d.get? 1, d.get? 2 with
    | some d0, some d1, some d2 =>
      if d0 = d1 ∧ d1 = d2 then some ⟨Role.ARASHI, d0 + 3, 3⟩
      else if d0 = d1 then some ⟨Role.ME, d2, 1⟩
      else if d1 = d2 then some ⟨Role.ME, d0, 1⟩
      else some ⟨Role.MENASHI, 0, 0⟩
    | _, _, _ => none

/-- Embeds `DiceResult.__init__` (src/main.py lines 48-50): sort the incoming
dice, then evaluate. -/
def classify (dice : List ℕ) : Option Classification :=
  evaluate (sortDice dice)

/-- Embeds `DiceResult.is_valid` (src/main.py lines 80-81). -/
def is_valid (c : Classification) : Bool :=
  c.role ≠ Role.MENASHI

/-- Embeds `DiceResult.beats` (src/main.py lines 83-89): 1 if self wins, -1 if
other wins, 0 on tie, comparing the `value` fields. -/
def beats (a b : Classification) : ℤ :=
  if a.value > b.value then 1
  else if a.value < b.value then -1
  else 0

/-- The contract on a roll produced by `roll_dice` (src/main.py
lines 92-94): three dice, each in `[1, 6]`. -/
def isValidRoll (r : List ℕ) : Prop :=
  r.length = 3 ∧ ∀ x ∈ r, 1 ≤ x ∧ x ≤ 6

instance : DecidablePred isValidRoll := fun r => by
  unfold isValidRoll; infer_instance

/-- Every possible output of `roll_dice`, enumerated. -/
def allRolls : List (List ℕ) :=
  (List.range 6).flatMap fun a =>
    (List.range 6).flatMap fun b =>
      (List.range 6).map fun c => [a + 1, b + 1, c + 1]

theorem mem_allRolls_of_valid {r : List ℕ} (h : isValidRoll r) :
    r ∈ allRolls := by
  obtain ⟨hlen, hbound⟩ := h
  obtain ⟨a, b, c, rfl⟩ := List.length_eq_three.mp hlen
  obtain ⟨ha1, ha6⟩ := hbound a (by simp)
  obtain ⟨hb1, hb6⟩ := hbound b (by simp)
  obtain ⟨hc1, hc6⟩ := hbound c (by simp)
  simp only [allRolls, List.mem_flatMap, List.mem_map, List.mem_range]
  exact ⟨a - 1, by omega, b - 1, by omega, c - 1, by omega, by
    simp only [List.cons.injEq, and_true]; omega⟩

set_option maxRecDepth 8000 in
theorem classify_table : ∀ r ∈ allRolls,
    (sortDice r = [1, 2, 3] → classify r = some ⟨Role.HIFUMI, 0, -2⟩) ∧
    (sortDice r = [4, 5, 6] → classify r = some ⟨Role.SHIGORO, 7, 2⟩) ∧
    (sortDice r = [1, 1, 1] → classify r = some ⟨Role.PINZORO, 10, 5⟩) ∧
    (∀ v ∈ r, sortDice r = [v, v, v] → v ≠ 1 → classify r = some ⟨Role.ARASHI, v + 3, 3⟩) ∧
    (∀ x ∈ r, ∀ y ∈ r, r.count x = 2 → r.count y = 1 → classify r = some ⟨Role.ME, y, 1⟩) ∧
    (r.Nodup → sortDice r ≠ [1, 2, 3] → sortDice r ≠ [4, 5, 6] →
      classify r = some ⟨Role.MENASHI, 0, 0⟩) ∧
    (∀ c, classify r = some c → (is_valid c = false ↔ c.role = Role.MENASHI)) := by
  decide

/-- C1: for every roll of three die values in [1,6], classification follows
the priority table: sorted (1,2,3) ↦ (HIFUMI, 0, -2); (4,5,6) ↦
(SHIGORO, 7, 2); (1,1,1) ↦ (PINZORO, 10, 5); any other all-equal triple ↦
(ARASHI, v+3, 3); exactly two equal ↦ (ME, unmatched face, 1); otherwise
(MENASHI, 0, 0), and MENASHI is exactly the invalid classification. -/
theorem classify_priority_table (r : List ℕ) (hr : isValidRoll r) :
    (sortDice r = [1, 2, 3] → classify r = some ⟨Role.HIFUMI, 0, -2⟩) ∧
    (sortDice r = [4, 5, 6] → classify r = some ⟨Role.SHIGORO, 7, 2⟩) ∧
    (sortDice r = [1, 1, 1] → classify r = some ⟨Role.PINZORO, 10, 5⟩) ∧
    (∀ v ∈ r, sortDice r = [v, v, v] → v ≠ 1 → classify r = some ⟨Role.ARASHI, v + 3, 3⟩) ∧
    (∀ x ∈ r, ∀ y ∈ r, r.count x = 2 → r.count y = 1 → classify r = some ⟨Role.ME, y, 1⟩) ∧
    (r.Nodup → sortDice r ≠ [1, 2, 3] → sortDice r ≠ [4, 5, 6] →
      classify r = some ⟨Role.MENASHI, 0, 0⟩) ∧
    (∀ c, classify r = some c → (is_valid c = false ↔ c.role = Role.MENASHI)) :=
  classify_table r (mem_allRolls_of_valid hr)

/-- Witness for C1 at the concrete roll [3,1,2]. -/
theorem classify_priority_table_witness :
    isValidRoll [3, 1, 2] ∧ classify [3, 1, 2] = some ⟨Role.HIFUMI, 0, -2⟩ :=
  ⟨by decide, (classify_priority_table [3, 1, 2] (by decide)).1 (by decide)⟩

/-- C5 counterexample: the roll (2,3,5) has all three faces distinct and is
neither (1,2,3) nor (4,5,6), yet its classification is MENASHI, not ME. -/
theorem distinct_not_me_counterexample :
    isValidRoll [2, 3, 5] ∧ [2, 3, 5].Nodup ∧
    sortDice [2, 3, 5] ≠ [1, 2, 3] ∧ sortDice [2, 3, 5] ≠ [4, 5, 6] ∧
    classify [2, 3, 5] = some ⟨Role.MENASHI, 0, 0⟩ ∧
    (Role.MENASHI ≠ Role.ME) := by
  decide

/-- C5 amended: for every roll with all three faces distinct that is not
(1,2,3) and not (4,5,6), the classification is MENASHI with
comparison_value 0 and multiplier 0 (the invalid classification). -/
theorem distinct_roll_is_menashi (r : List ℕ) (hr : isValidRoll r)
    (hnd : r.Nodup) (h123 : sortDice r ≠ [1, 2, 3]) (h456 : sortDice r ≠ [4, 5, 6]) :
    classify r = some ⟨Role.MENASHI, 0, 0⟩ :=
  (classify_table r (mem_allRolls_of_valid hr)).2.2.2.2.2.1 hnd h123 h456

/-- Witness for the amended C5 at the concrete roll [5,3,2]. -/
theorem distinct_roll_is_menashi_witness :
    isValidRoll [5, 3, 2] ∧ classify [5, 3, 2] = some ⟨Role.MENASHI, 0, 0⟩ :=
  ⟨by decide, distinct_roll_is_menashi [5, 3, 2] (by decide) (by decide)
    (by decide) (by decide)⟩

/-- C6: classification is invariant under permutation of the input dice:
`DiceResult.__init__` sorts before evaluating, so any two orderings of the
same multiset yield the same (role, value, multiplier). -/
theorem classify_perm_invariant (l₁ l₂ : List ℕ) (h : l₁.Perm l₂) :
    classify l₁ = classify l₂ := by
  have hperm : (sortDice l₁).Perm (sortDice l₂) :=
    (List.perm_insertionSort _ l₁).trans (h.trans (List.perm_insertionSort _ l₂).symm)
  have heq : sortDice l₁ = sortDice l₂ :=
    List.eq_of_perm_of_sorted hperm
      (List.sorted_insertionSort _ l₁) (List.sorted_insertionSort _ l₂)
  unfold classify
  rw [heq]

/-- Witness for C6 at the orderings [3,1,2] and [2,3,1]. -/
theorem classify_perm_invariant_witness :
    classify [3, 1, 2] = classify [2, 3, 1] :=
  classify_perm_invariant [3, 1, 2] [2, 3, 1] (by decide)

/-- C8: the code does NOT reject malformed rolls at construction. The
length-3 roll [7,7,2] with a face outside [1,6] is silently classified as
(ME, 2, 1) — a valid classification — instead of failing fast. -/
theorem malformed_roll_silently_classified :
    ¬ isValidRoll [7, 7, 2] ∧
    classify [7, 7, 2] = some ⟨Role.ME, 2, 1⟩ ∧
    is_valid ⟨Role.ME, 2, 1⟩ = true := by
  decide

/-- Embeds `Game.resolve_round` (src/main.py lines 376-407): payout for a finalized
player classification against a dealer classification (`none` = dealer
exhausted without a valid roll). -/
def resolve_round (player_result : Classification)
    (dealer_result : Option Classification) (bet : ℤ) : ℤ :=
  if player_result.role = Role.HIFUMI then
    -bet * |player_result.multiplier|
  else if player_result.role ∈ [Role.SHIGORO, Role.PINZORO, Role.ARASHI] then
    bet * player_result.multiplier
  else
    match dealer_result with
    | none => bet * player_result.multiplier
    | some d =>
      if d.role = Role.HIFUMI then bet * 2
      else if d.role ∈ [Role.SHIGORO, Role.PINZORO, Role.ARASHI] then
        -bet * d.multiplier
      else
        let comparison := beats player_result d
        if comparison > 0 then bet * player_result.multiplier
        else if comparison < 0 then -bet * d.multiplier
        else 0

/-- The rolling loop of one side (`Game.player_roll` / `Game.dealer_roll`,
src/main.py lines 328-374): starting at attempt index `attempt` with `fuel`
attempts left, classify each roll and stop at the first valid result.
Returns the final result (`none` inside the pair = exhausted) paired with
the number of attempts consumed; the outer `none` models an `IndexError`
escaping `DiceResult` on a malformed roll. -/
def side_roll_go (roller : ℕ → List ℕ) : ℕ → ℕ → Option (Option Classification × ℕ)
  | _, 0 => some (none, 0)
  | attempt, fuel + 1 =>
    match classify (roller attempt) with
    | none => none
    | some result =>
      if is_valid result then some (some result, 1)
      else (side_roll_go roller (attempt + 1) fuel).map fun p => (p.1, p.2 + 1)

/-- Embeds `Game.player_roll` / `Game.dealer_roll` with their default
`max_attempts = 3`. -/
def side_roll (roller : ℕ → List ℕ) (max_attempts : ℕ) :
    Option (Option Classification × ℕ) :=
  side_roll_go roller 0 max_attempts

/-- The round-resolution core of `Game.play_round` (src/main.py lines
409-479): roll for the player, short-circuit on auto outcomes, otherwise
roll the dealer and resolve.  Returns (payout, player attempts, dealer
attempts); betting I/O, bankroll bookkeeping and display are collaborator
concerns outside the model. -/
def play_round (playerRoller dealerRoller : ℕ → List ℕ) (bet : ℤ) :
    Option (ℤ × ℕ × ℕ) :=
  match side_roll playerRoller 3 with
  | none => none
  | some (pres, pn) =>
    match pres with
    | none => some (-bet, pn, 0)
    | some p =>
      if p.role = Role.HIFUMI then some (-bet * |p.multiplier|, pn, 0)
      else if p.role ∈ [Role.SHIGORO, Role.PINZORO, Role.ARASHI] then
        some (bet * p.multiplier, pn, 0)
      else
        match side_roll dealerRoller 3 with
        | none => none
        | some (dres, dn) => some (resolve_round p dres bet, pn, dn)

/-- Every classification a well-formed roll can map to, other than the
invalid `(MENASHI, 0, 0)`. -/
def validClassifications : List Classification :=
  [⟨Role.HIFUMI, 0, -2⟩, ⟨Role.SHIGORO, 7, 2⟩, ⟨Role.PINZORO, 10, 5⟩,
   ⟨Role.ARASHI, 5, 3⟩, ⟨Role.ARASHI, 6, 3⟩, ⟨Role.ARASHI, 7, 3⟩,
   ⟨Role.ARASHI, 8, 3⟩, ⟨Role.ARASHI, 9, 3⟩,
   ⟨Role.ME, 1, 1⟩, ⟨Role.ME, 2, 1⟩, ⟨Role.ME, 3, 1⟩,
   ⟨Role.ME, 4, 1⟩, ⟨Role.ME, 5, 1⟩, ⟨Role.ME, 6, 1⟩]

set_option maxRecDepth 8000 in
theorem classify_total : ∀ r ∈ allRolls, (classify r).isSome = true := by
  decide

set_option maxRecDepth 8000 in
theorem classify_shape : ∀ r ∈ allRolls, ∀ c, classify r = some c →
    c = ⟨Role.MENASHI, 0, 0⟩ ∨ c ∈ validClassifications := by
  decide

/-- C3: with the player settled on ME, the dealer outcome decides the
payout: dealer exhausted pays `bet * P.multiplier`; dealer HIFUMI pays a
flat `bet * 2`; dealer SHIGORO/PINZORO/ARASHI costs `bet * D.multiplier`;
two MEs compare their values, with a strict win paying
`bet * P.multiplier`, a strict loss costing `bet * D.multiplier`, and a tie
paying exactly 0. -/
theorem me_vs_dealer_payout (P : Classification) (hp : P.role = Role.ME) (bet : ℤ) :
    (resolve_round P none bet = bet * P.multiplier) ∧
    (∀ D : Classification, D.role = Role.HIFUMI →
      resolve_round P (some D) bet = bet * 2) ∧
    (∀ D : Classification, D.role ∈ [Role.SHIGORO, Role.PINZORO, Role.ARASHI] →
      resolve_round P (some D) bet = -bet * D.multiplier) ∧
    (∀ D : Classification, D.role = Role.ME →
      (P.value > D.value → resolve_round P (some D) bet = bet * P.multiplier) ∧
      (P.value < D.value → resolve_round P (some D) bet = -bet * D.multiplier) ∧
      (P.value = D.value → resolve_round P (some D) bet = 0)) := by
  refine ⟨?_, ?_, ?_, ?_⟩
  · simp [resolve_round, hp]
  · intro D hD
    simp [resolve_round, hp, hD]
  · intro D hD
    have h1 : D.role ≠ Role.HIFUMI := by
      simp only [List.mem_cons, List.not_mem_nil, or_false] at hD
      rcases hD with h | h | h <;> simp [h]
    simp [resolve_round, hp, h1, hD]
  · intro D hD
    have h1 : D.role ≠ Role.HIFUMI := by simp [hD]
    have h2 : D.role ∉ [Role.SHIGORO, Role.PINZORO, Role.ARASHI] := by simp [hD]
    refine ⟨?_, ?_, ?_⟩ <;> intro hv <;>
      simp only [resolve_round, hp, h1, h2, beats] <;>
      split_ifs <;> simp_all <;> omega

/-- Witness for C3: player (ME, 5) against dealer HIFUMI at bet 100 pays
the flat 200. -/
theorem me_vs_dealer_payout_witness :
    resolve_round ⟨Role.ME, 5, 1⟩ (some ⟨Role.HIFUMI, 0, -2⟩) 100 = 200 := by
  have h := (me_vs_dealer_payout ⟨Role.ME, 5, 1⟩ rfl 100).2.1 ⟨Role.HIFUMI, 0, -2⟩ rfl
  norm_num at h
  exact h

theorem resolve_round_linear (p : Classification) (d : Option Classification)
    (bet : ℤ) : resolve_round p d bet = resolve_round p d 1 * bet := by
  cases d <;> simp only [resolve_round] <;> split_ifs <;> ring

theorem resolveK_none : ∀ P ∈ validClassifications,
    resolve_round P none 1 ∈ ([-5, -3, -2, -1, 0, 1, 2, 3, 5] : List ℤ) ∧
    resolve_round P none 1 ≠ 0 := by
  decide

theorem resolveK_some : ∀ P ∈ validClassifications, ∀ D ∈ validClassifications,
    resolve_round P (some D) 1 ∈ ([-5, -3, -2, -1, 0, 1, 2, 3, 5] : List ℤ) ∧
    (resolve_round P (some D) 1 = 0 →
      P.role = Role.ME ∧ D.role = Role.ME ∧ P.value = D.value) := by
  decide

theorem mem_validClassifications_of_classify {r : List ℕ} (hr : isValidRoll r)
    {c : Classification} (hc : classify r = some c) (hcv : c.role ≠ Role.MENASHI) :
    c ∈ validClassifications := by
  rcases classify_shape r (mem_allRolls_of_valid hr) c hc with h | h
  · rw [h] at hcv; simp at hcv
  · exact h

/-- C10: for any valid player classification, any dealer result (valid or
exhausted), and any positive bet, the resolved payout is `k * bet` for some
`k ∈ {-5,-3,-2,-1,0,1,2,3,5}`; its magnitude never exceeds `5 * bet`, and
it is 0 only when both sides are ME with equal comparison values. -/
theorem payout_multiplier_bounded (rp : List ℕ) (hrp : isValidRoll rp)
    (P : Classification) (hP : classify rp = some P) (hPv : P.role ≠ Role.MENASHI)
    (D : Option Classification)
    (hD : D = none ∨ ∃ rd, isValidRoll rd ∧ ∃ Dc, classify rd = some Dc ∧
      Dc.role ≠ Role.MENASHI ∧ D = some Dc)
    (bet : ℤ) (hbet : 0 < bet) :
    (∃ k ∈ ([-5, -3, -2, -1, 0, 1, 2, 3, 5] : List ℤ),
      resolve_round P D bet = k * bet) ∧
    |resolve_round P D bet| ≤ 5 * bet ∧
    (resolve_round P D bet = 0 →
      P.role = Role.ME ∧ ∃ Dc, D = some Dc ∧ Dc.role = Role.ME ∧
        P.value = Dc.value) := by
  have hPmem : P ∈ validClassifications :=
    mem_validClassifications_of_classify hrp hP hPv
  have hk : resolve_round P D 1 ∈ ([-5, -3, -2, -1, 0, 1, 2, 3, 5] : List ℤ) ∧
      (resolve_round P D 1 = 0 →
        P.role = Role.ME ∧ ∃ Dc, D = some Dc ∧ Dc.role = Role.ME ∧
          P.value = Dc.value) := by
    rcases hD with rfl | ⟨rd, hrd, Dc, hDc, hDcv, rfl⟩
    · obtain ⟨h1, h2⟩ := resolveK_none P hPmem
      exact ⟨h1, fun h0 => absurd h0 h2⟩
    · have hDmem : Dc ∈ validClassifications :=
        mem_validClassifications_of_classify hrd hDc hDcv
      obtain ⟨h1, h2⟩ := resolveK_some P hPmem Dc hDmem
      exact ⟨h1, fun h0 => by
        obtain ⟨ha, hb, hc⟩ := h2 h0
        exact ⟨ha, Dc, rfl, hb, hc⟩⟩
  have hlin := resolve_round_linear P D bet
  refine ⟨⟨resolve_round P D 1, hk.1, hlin⟩, ?_, ?_⟩
  · have habs : |resolve_round P D 1| ≤ 5 := by
      have hall : ∀ k ∈ ([-5, -3, -2, -1, 0, 1, 2, 3, 5] : List ℤ), |k| ≤ 5 := by
        decide
      exact hall _ hk.1
    calc |resolve_round P D bet| = |resolve_round P D 1 * bet| := by rw [hlin]
      _ = |resolve_round P D 1| * |bet| := abs_mul _ _
      _ = |resolve_round P D 1| * bet := by rw [abs_of_pos hbet]
      _ ≤ 5 * bet := by
          exact mul_le_mul_of_nonneg_right habs (le_of_lt hbet)
  · intro h0
    apply hk.2
    rw [hlin] at h0
    rcases mul_eq_zero.mp h0 with h | h
    · exact h
    · omega

/-- Witness for C10: player (3,3,5)→ME:5 against dealer (4,4,5)→ME:5 at
bet 100. -/
theorem payout_multiplier_bounded_witness :
    (∃ k ∈ ([-5, -3, -2, -1, 0, 1, 2, 3, 5] : List ℤ),
      resolve_round ⟨Role.ME, 5, 1⟩ (some ⟨Role.ME, 5, 1⟩) 100 = k * 100) ∧
    |resolve_round ⟨Role.ME, 5, 1⟩ (some ⟨Role.ME, 5, 1⟩) 100| ≤ 5 * 100 := by
  have h := payout_multiplier_bounded [3, 3, 5] (by decide) ⟨Role.ME, 5, 1⟩
    (by decide) (by decide) (some ⟨Role.ME, 5, 1⟩)
    (Or.inr ⟨[4, 4, 5], by decide, ⟨Role.ME, 5, 1⟩, by decide, by decide, rfl⟩)
    100 (by norm_num)
  exact ⟨h.1, h.2.1⟩


theorem side_roll_go_step (roller : ℕ → List ℕ) (attempt fuel : ℕ)
    (c : Classification) (hc : classify (roller attempt) = some c) :
    side_roll_go roller attempt (fuel + 1) =
      if is_valid c then some (some c, 1)
      else (side_roll_go roller (attempt + 1) fuel).map fun p => (p.1, p.2 + 1) := by
  simp only [side_roll_go, hc]

theorem auto_resolving_payout (r : List ℕ) (hr : isValidRoll r)
    (P : Classification) (hP : classify r = some P)
    (playerRoller dealerRoller : ℕ → List ℕ) (n : ℕ)
    (hside : side_roll playerRoller 3 = some (some P, n))
    (bet : ℤ) (hbet : 0 < bet) :
    (P.role = Role.HIFUMI →
      play_round playerRoller dealerRoller bet = some (-2 * bet, n, 0)) ∧
    (P.role ∈ [Role.SHIGORO, Role.PINZORO, Role.ARASHI] →
      play_round playerRoller dealerRoller bet = some (bet * P.multiplier, n, 0)) := by
  constructor
  · intro hrole
    have hmem := classify_shape r (mem_allRolls_of_valid hr) P hP
    have hPeq : P = ⟨Role.HIFUMI, 0, -2⟩ := by
      rcases hmem with h | h
      · rw [h] at hrole; simp at hrole
      · fin_cases h <;> first | rfl | (exact absurd hrole (by decide))
    subst hPeq
    simp only [play_round, hside]
    norm_num
    ring
  · intro hrole
    have hH : P.role ≠ Role.HIFUMI := by
      simp only [List.mem_cons, List.not_mem_nil, or_false] at hrole
      rcases hrole with h | h | h <;> simp [h]
    simp only [play_round, hside]
    rw [if_neg hH, if_pos hrole]

theorem auto_resolving_payout_witness :
    play_round (fun _ => [1, 1, 1]) (fun _ => [2, 3, 5]) 100 = some (500, 1, 0) := by
  have h := (auto_resolving_payout [1, 1, 1] (by decide) ⟨Role.PINZORO, 10, 5⟩
    (by decide) (fun _ => [1, 1, 1]) (fun _ => [2, 3, 5]) 1 (by decide)
    100 (by norm_num)).2 (by decide)
  norm_num at h
  exact h


theorem side_roll_attempts (roller : ℕ → List ℕ)
    (hvalid : ∀ i < 3, isValidRoll (roller i)) :
    (∃ res n, side_roll roller 3 = some (res, n) ∧ n ≤ 3 ∧
      (∀ c, res = some c → ∃ i, i < 3 ∧ n = i + 1 ∧ classify (roller i) = some c ∧
        is_valid c = true ∧
        ∀ j < i, ∃ cj, classify (roller j) = some cj ∧ is_valid cj = false) ∧
      (res = none → ∀ j < 3, ∃ cj, classify (roller j) = some cj ∧ is_valid cj = false)) ∧
    (∀ dealerRoller : ℕ → List ℕ, ∀ bet : ℤ,
      side_roll roller 3 = some (none, 3) →
      play_round roller dealerRoller bet = some (-bet, 3, 0)) := by
  constructor
  · obtain ⟨c0, hc0⟩ := Option.isSome_iff_exists.mp
      (classify_total (roller 0) (mem_allRolls_of_valid (hvalid 0 (by norm_num))))
    obtain ⟨c1, hc1⟩ := Option.isSome_iff_exists.mp
      (classify_total (roller 1) (mem_allRolls_of_valid (hvalid 1 (by norm_num))))
    obtain ⟨c2, hc2⟩ := Option.isSome_iff_exists.mp
      (classify_total (roller 2) (mem_allRolls_of_valid (hvalid 2 (by norm_num))))
    cases hv0 : is_valid c0 with
    | true =>
      refine ⟨some c0, 1, ?_, by norm_num, ?_, by simp⟩
      · unfold side_roll
        rw [side_roll_go_step roller 0 2 c0 hc0, if_pos hv0]
      · intro c hceq
        obtain rfl := Option.some.inj hceq
        exact ⟨0, by norm_num, rfl, hc0, hv0, by intro j hj; omega⟩
    | false =>
      cases hv1 : is_valid c1 with
      | true =>
        refine ⟨some c1, 2, ?_, by norm_num, ?_, by simp⟩
        · unfold side_roll
          rw [side_roll_go_step roller 0 2 c0 hc0, if_neg (by simp [hv0]),
              side_roll_go_step roller 1 1 c1 hc1, if_pos hv1]
          rfl
        · intro c hceq
          obtain rfl := Option.some.inj hceq
          refine ⟨1, by norm_num, rfl, hc1, hv1, ?_⟩
          intro j hj
          interval_cases j
          exact ⟨c0, hc0, hv0⟩
      | false =>
        cases hv2 : is_valid c2 with
        | true =>
          refine ⟨some c2, 3, ?_, by norm_num, ?_, by simp⟩
          · unfold side_roll
            rw [side_roll_go_step roller 0 2 c0 hc0, if_neg (by simp [hv0]),
                side_roll_go_step roller 1 1 c1 hc1, if_neg (by simp [hv1]),
                side_roll_go_step roller 2 0 c2 hc2, if_pos hv2]
            rfl
          · intro c hceq
            obtain rfl := Option.some.inj hceq
            refine ⟨2, by norm_num, rfl, hc2, hv2, ?_⟩
            intro j hj
            interval_cases j
            · exact ⟨c0, hc0, hv0⟩
            · exact ⟨c1, hc1, hv1⟩
        | false =>
          refine ⟨none, 3, ?_, by norm_num, by simp, ?_⟩
          · unfold side_roll
            rw [side_roll_go_step roller 0 2 c0 hc0, if_neg (by simp [hv0]),
                side_roll_go_step roller 1 1 c1 hc1, if_neg (by simp [hv1]),
                side_roll_go_step roller 2 0 c2 hc2, if_neg (by simp [hv2])]
            rfl
          · intro _ j hj
            interval_cases j
            · exact ⟨c0, hc0, hv0⟩
            · exact ⟨c1, hc1, hv1⟩
            · exact ⟨c2, hc2, hv2⟩
  · intro dealerRoller bet hside
    simp only [play_round, hside]

theorem side_roll_attempts_witness :
    play_round (fun _ => [2, 3, 5]) (fun _ => [1, 1, 1]) 7 = some (-7, 3, 0) :=
  (side_roll_attempts (fun _ => [2, 3, 5]) (fun i _ => (by decide : isValidRoll [2, 3, 5]))).2
    (fun _ => [1, 1, 1]) 7 (by decide)

/-- Embeds `is_tense_situation` (src/main.py lines 97-120).  In Python,
`{d0, d1}.issubset(s)` is membership of both `d0` and `d1` in `s`. -/
def is_tense_situation (dice_so_far : List ℕ) (is_last_reroll : Bool) : Bool :=
  if is_last_reroll then true
  else if dice_so_far.length < 2 then false
  else
    let d0 := dice_so_far.getD 0 0
    let d1 := dice_so_far.getD 1 0
    if d0 = d1 then true
    else if d0 ∈ [4, 5, 6] ∧ d1 ∈ [4, 5, 6] then true
    else if d0 ∈ [1, 2, 3] ∧ d1 ∈ [1, 2, 3] then true
    else false

/-- Constant `DELAY_DICE_CONFIRM` (src/main.py line 26), seconds as a rational. -/
def DELAY_DICE_CONFIRM : ℚ := 3 / 10

/-- Constant `DELAY_DICE_LAST_NORMAL` (src/main.py line 27). -/
def DELAY_DICE_LAST_NORMAL : ℚ := 1 / 2

/-- Constant `DELAY_DICE_LAST_TENSE` (src/main.py line 28): the (lo, hi) range
handed to `random.uniform` in the tense branch. -/
def DELAY_DICE_LAST_TENSE : ℚ × ℚ := (3 / 2, 5 / 2)

/-- The pre-confirmation delay chosen for die index `i` in
`animate_dice_roll` (src/main.py lines 166-173); `u` stands for the value
`random.uniform(*DELAY_DICE_LAST_TENSE)` returns when the tense branch is
taken. -/
def dice_confirm_delay (i : ℕ) (confirmed_vals : List ℕ)
    (is_last_reroll : Bool) (u : ℚ) : ℚ :=
  if i = 2 then
    if is_tense_situation (confirmed_vals.take 2) is_last_reroll then u
    else DELAY_DICE_LAST_NORMAL
  else DELAY_DICE_CONFIRM

/-- C7: the tension predicate holds iff this is the final attempt, or at
least two dice are fixed and the first two are equal, both in {4,5,6}, or
both in {1,2,3}; consequently, on a non-final attempt whose first two
confirmed dice are both in {4,5,6}, the third-die delay is the tense
sample, lies in [1.5, 2.5], and never equals the normal 0.5s. -/
theorem tense_predicate_spec :
    (∀ (l : List ℕ) (b : Bool), is_tense_situation l b = true ↔
      (b = true ∨ ∃ d0 d1 rest, l = d0 :: d1 :: rest ∧
        (d0 = d1 ∨ (d0 ∈ [4, 5, 6] ∧ d1 ∈ [4, 5, 6]) ∨
         (d0 ∈ [1, 2, 3] ∧ d1 ∈ [1, 2, 3])))) ∧
    (∀ d0 d1 : ℕ, d0 ∈ [4, 5, 6] → d1 ∈ [4, 5, 6] → ∀ u : ℚ,
      DELAY_DICE_LAST_TENSE.1 ≤ u → u ≤ DELAY_DICE_LAST_TENSE.2 →
      dice_confirm_delay 2 [d0, d1] false u = u ∧
      DELAY_DICE_LAST_TENSE.1 ≤ dice_confirm_delay 2 [d0, d1] false u ∧
      dice_confirm_delay 2 [d0, d1] false u ≤ DELAY_DICE_LAST_TENSE.2 ∧
      dice_confirm_delay 2 [d0, d1] false u ≠ DELAY_DICE_LAST_NORMAL) := by
  constructor
  · intro l b
    cases b with
    | true => simp [is_tense_situation]
    | false =>
      match l with
      | [] => simp [is_tense_situation]
      | [d0] => simp [is_tense_situation]
      | d0 :: d1 :: rest =>
        have hunfold : is_tense_situation (d0 :: d1 :: rest) false =
            (if d0 = d1 then true
             else if d0 ∈ [4, 5, 6] ∧ d1 ∈ [4, 5, 6] then true
             else if d0 ∈ [1, 2, 3] ∧ d1 ∈ [1, 2, 3] then true
             else false) := by
          simp [is_tense_situation]
        rw [hunfold]
        simp only [Bool.false_eq_true, false_or]
        constructor
        · intro h
          refine ⟨d0, d1, rest, rfl, ?_⟩
          by_cases h1 : d0 = d1
          · exact Or.inl h1
          · by_cases h2 : d0 ∈ [4, 5, 6] ∧ d1 ∈ [4, 5, 6]
            · exact Or.inr (Or.inl h2)
            · by_cases h3 : d0 ∈ [1, 2, 3] ∧ d1 ∈ [1, 2, 3]
              · exact Or.inr (Or.inr h3)
              · rw [if_neg h1, if_neg h2, if_neg h3] at h
                exact absurd h (by simp)
        · rintro ⟨d0', d1', rest', heq, hcond⟩
          obtain ⟨rfl, rfl, rfl⟩ : d0 = d0' ∧ d1 = d1' ∧ rest = rest' := by
            simpa using heq
          rcases hcond with h1 | h2 | h3
          · simp [h1]
          · by_cases h1 : d0 = d1 <;> simp [h1, h2]
          · by_cases h1 : d0 = d1 <;> by_cases h2 : d0 ∈ [4, 5, 6] ∧ d1 ∈ [4, 5, 6] <;>
              simp [h1, h2, h3]
  · intro d0 d1 h0 h1 u hu1 hu2
    have ht : is_tense_situation [d0, d1] false = true := by
      fin_cases h0 <;> fin_cases h1 <;> decide
    have heq : dice_confirm_delay 2 [d0, d1] false u = u := by
      simp [dice_confirm_delay, ht]
    refine ⟨heq, ?_, ?_, ?_⟩
    · rw [heq]; exact hu1
    · rw [heq]; exact hu2
    · rw [heq]
      intro hbad
      rw [hbad] at hu1
      norm_num [DELAY_DICE_LAST_TENSE, DELAY_DICE_LAST_NORMAL] at hu1

/-- Witness for C7 with fixed dice (4,5), non-final attempt, sample u = 2. -/
theorem tense_predicate_spec_witness :
    is_tense_situation [4, 5] false = true ∧
    dice_confirm_delay 2 [4, 5] false 2 = 2 ∧
    dice_confirm_delay 2 [4, 5] false 2 ≠ DELAY_DICE_LAST_NORMAL := by
  have h1 := (tense_predicate_spec.1 [4, 5] false).mpr
    (Or.inr ⟨4, 5, [], rfl, Or.inr (Or.inl ⟨by decide, by decide⟩)⟩)
  have h2 := tense_predicate_spec.2 4 5 (by decide) (by decide) 2
    (by norm_num [DELAY_DICE_LAST_TENSE]) (by norm_num [DELAY_DICE_LAST_TENSE])
  exact ⟨h1, h2.1, h2.2.2.2⟩

/-- One display slot of a reveal frame written by `animate_dice_roll`: a
die value (shown as two digits) or the "##" placeholder. -/
inductive Cell where
  | val (n : ℕ)
  | mask
deriving DecidableEq, Repr

/-- A spin-tick frame (src/main.py lines 154-156 and 178-181): confirmed
dice at their final values followed by freshly sampled cosmetic randoms in
the still-spinning slots. -/
def spinFrame (confirmed : List ℕ) (spin : List ℕ) : List Cell :=
  confirmed.map Cell.val ++ spin.map Cell.val

/-- The frame shown when a die is confirmed (src/main.py lines 190-194):
confirmed values, then "##" masks for the unconfirmed slots. -/
def confirmFrame (confirmed : List ℕ) (remaining : ℕ) : List Cell :=
  confirmed.map Cell.val ++ List.replicate remaining Cell.mask

/-- A spin loop of `t` ticks reading the random stream `rng` from position
`k`, each tick sampling `remaining` fresh values (the
`while time.time() < end_time` loops of src/main.py lines 153-158 and
177-183).  Returns the emitted frames and the next stream position. -/
def spinFrames (rng : ℕ → ℕ) (confirmed : List ℕ) (remaining : ℕ) :
    ℕ → ℕ → List (List Cell) × ℕ
  | k, 0 => ([], k)
  | k, t + 1 =>
    let sample := (List.range remaining).map fun j => rng (k + j)
    let rest := spinFrames rng confirmed remaining (k + remaining) t
    (spinFrame confirmed sample :: rest.1, rest.2)

/-- Constant `DELAY_DICE_SPIN_DURATION` (src/main.py line 30). -/
def DELAY_DICE_SPIN_DURATION : ℚ := 1

/-- Phase 2 of `animate_dice_roll` (src/main.py lines 160-195):
progressively confirm each die of the final roll, spinning the unconfirmed
slots for the pre-confirmation delay of this die first.  `tickCount d`
abstracts the wall clock: the number of spin iterations that fit in a
delay of `d` seconds; `u i` is the `random.uniform` sample the tense
branch would use at die index `i`; `k` is the random stream position. -/
def revealFrames (rng : ℕ → ℕ) (tickCount : ℚ → ℕ) (u : ℕ → ℚ)
    (is_last_reroll : Bool) :
    List ℕ → List ℕ → ℕ → ℕ → List (List Cell) × ℕ
  | [], _, _, k => ([], k)
  | v :: rest, confirmed, i, k =>
    let remaining_before := 3 - confirmed.length
    let delay := dice_confirm_delay i confirmed is_last_reroll (u i)
    let spins := spinFrames rng confirmed remaining_before k (tickCount delay)
    let confirmed2 := confirmed ++ [v]
    let tail := revealFrames rng tickCount u is_last_reroll rest confirmed2
      (i + 1) spins.2
    (spins.1 ++ confirmFrame confirmed2 (3 - confirmed2.length) :: tail.1, tail.2)

/-- Embeds `animate_dice_roll` (src/main.py lines 148-195) as the sequence of
frames it writes: the spin-all phase, then the progressive reveal. -/
def animate_dice_roll (rng : ℕ → ℕ) (tickCount : ℚ → ℕ) (u : ℕ → ℚ)
    (final_dice : List ℕ) (is_last_reroll : Bool) : List (List Cell) :=
  let phase1 := spinFrames rng [] 3 0 (tickCount DELAY_DICE_SPIN_DURATION)
  phase1.1 ++
    (revealFrames rng tickCount u is_last_reroll final_dice [] 0 phase1.2).1

/-- Number of frames emitted strictly before die index `i` is confirmed:
the spin-all phase, the spin window and confirmation frame of every
earlier die, and the spin window of die `i` itself. -/
def framesBeforeConfirm (tickCount : ℚ → ℕ) (u : ℕ → ℚ)
    (is_last_reroll : Bool) (final_dice : List ℕ) (i : ℕ) : ℕ :=
  tickCount DELAY_DICE_SPIN_DURATION +
    (((List.range i).map fun j =>
      tickCount (dice_confirm_delay j (final_dice.take j) is_last_reroll (u j))
        + 1).sum +
      tickCount (dice_confirm_delay i (final_dice.take i) is_last_reroll (u i)))

theorem spinFrames_length (rng : ℕ → ℕ) (confirmed : List ℕ) (remaining : ℕ) :
    ∀ (t k : ℕ), (spinFrames rng confirmed remaining k t).1.length = t := by
  intro t
  induction t with
  | zero => intro k; rfl
  | succ n ih => intro k; simp [spinFrames, ih]

/-- The spin window before the confirmation of die 0. -/
def stage1 (rng : ℕ → ℕ) (tickCount : ℚ → ℕ) (u : ℕ → ℚ) (il : Bool) :
    List (List Cell) × ℕ :=
  spinFrames rng [] 3 (spinFrames rng [] 3 0 (tickCount DELAY_DICE_SPIN_DURATION)).2
    (tickCount (dice_confirm_delay 0 [] il (u 0)))

/-- The spin window before the confirmation of die 1, after `x` is confirmed. -/
def stage2 (rng : ℕ → ℕ) (tickCount : ℚ → ℕ) (u : ℕ → ℚ) (il : Bool) (x : ℕ) :
    List (List Cell) × ℕ :=
  spinFrames rng [x] 2 (stage1 rng tickCount u il).2
    (tickCount (dice_confirm_delay 1 [x] il (u 1)))

/-- The spin window before the confirmation of die 2, after `x`, `y` are
confirmed. -/
def stage3 (rng : ℕ → ℕ) (tickCount : ℚ → ℕ) (u : ℕ → ℚ) (il : Bool)
    (x y : ℕ) : List (List Cell) × ℕ :=
  spinFrames rng [x, y] 1 (stage2 rng tickCount u il x).2
    (tickCount (dice_confirm_delay 2 [x, y] il (u 2)))

theorem animate_decomp (rng : ℕ → ℕ) (tickCount : ℚ → ℕ) (u : ℕ → ℚ)
    (il : Bool) (x y z : ℕ) :
    animate_dice_roll rng tickCount u [x, y, z] il =
      (spinFrames rng [] 3 0 (tickCount DELAY_DICE_SPIN_DURATION)).1 ++
        ((stage1 rng tickCount u il).1 ++ confirmFrame [x] 2 ::
          ((stage2 rng tickCount u il x).1 ++ confirmFrame [x, y] 1 ::
            ((stage3 rng tickCount u il x y).1 ++
              [confirmFrame [x, y, z] 0]))) := rfl

/-- Frames up to and including the spin window of die 0 (independent of
all final die values). -/
def revealPre0 (rng : ℕ → ℕ) (tickCount : ℚ → ℕ) (u : ℕ → ℚ) (il : Bool) :
    List (List Cell) :=
  (spinFrames rng [] 3 0 (tickCount DELAY_DICE_SPIN_DURATION)).1 ++
    (stage1 rng tickCount u il).1

/-- Frames up to and including the spin window of die 1 (depends only on
the final value `x` of die 0). -/
def revealPre1 (rng : ℕ → ℕ) (tickCount : ℚ → ℕ) (u : ℕ → ℚ) (il : Bool)
    (x : ℕ) : List (List Cell) :=
  revealPre0 rng tickCount u il ++
    confirmFrame [x] 2 :: (stage2 rng tickCount u il x).1

/-- Frames up to and including the spin window of die 2 (depends only on
the final values `x`, `y` of dice 0 and 1). -/
def revealPre2 (rng : ℕ → ℕ) (tickCount : ℚ → ℕ) (u : ℕ → ℚ) (il : Bool)
    (x y : ℕ) : List (List Cell) :=
  revealPre1 rng tickCount u il x ++
    confirmFrame [x, y] 1 :: (stage3 rng tickCount u il x y).1

theorem animate_decomp0 (rng : ℕ → ℕ) (tickCount : ℚ → ℕ) (u : ℕ → ℚ)
    (il : Bool) (x y z : ℕ) :
    animate_dice_roll rng tickCount u [x, y, z] il =
      revealPre0 rng tickCount u il ++ confirmFrame [x] 2 ::
        ((stage2 rng tickCount u il x).1 ++ confirmFrame [x, y] 1 ::
          ((stage3 rng tickCount u il x y).1 ++ [confirmFrame [x, y, z] 0])) := by
  rw [animate_decomp]
  simp [revealPre0, List.append_assoc]

theorem animate_decomp1 (rng : ℕ → ℕ) (tickCount : ℚ → ℕ) (u : ℕ → ℚ)
    (il : Bool) (x y z : ℕ) :
    animate_dice_roll rng tickCount u [x, y, z] il =
      revealPre1 rng tickCount u il x ++ confirmFrame [x, y] 1 ::
        ((stage3 rng tickCount u il x y).1 ++ [confirmFrame [x, y, z] 0]) := by
  rw [animate_decomp0]
  simp [revealPre1, List.append_assoc]

theorem animate_decomp2 (rng : ℕ → ℕ) (tickCount : ℚ → ℕ) (u : ℕ → ℚ)
    (il : Bool) (x y z : ℕ) :
    animate_dice_roll rng tickCount u [x, y, z] il =
      revealPre2 rng tickCount u il x y ++ [confirmFrame [x, y, z] 0] := by
  rw [animate_decomp1]
  simp [revealPre2, List.append_assoc]

theorem getElem_append_cons {α : Type _} (p s : List α) (x : α) :
    (p ++ x :: s)[p.length]? = some x := by
  rw [List.getElem?_append_right (le_refl _), Nat.sub_self]
  simp

theorem take_append_left_eq {α : Type _} (p s₁ s₂ : List α) :
    (p ++ s₁).take p.length = (p ++ s₂).take p.length := by
  rw [List.take_left, List.take_left]

theorem framesBefore0_len (rng : ℕ → ℕ) (tickCount : ℚ → ℕ) (u : ℕ → ℚ)
    (il : Bool) (x y z : ℕ) :
    framesBeforeConfirm tickCount u il [x, y, z] 0 =
      (revealPre0 rng tickCount u il).length := by
  simp [framesBeforeConfirm, revealPre0, stage1, spinFrames_length]

theorem framesBefore1_len (rng : ℕ → ℕ) (tickCount : ℚ → ℕ) (u : ℕ → ℚ)
    (il : Bool) (x y z : ℕ) :
    framesBeforeConfirm tickCount u il [x, y, z] 1 =
      (revealPre1 rng tickCount u il x).length := by
  simp [framesBeforeConfirm, revealPre1, revealPre0, stage1, stage2,
    spinFrames_length, List.range_succ]
  omega

theorem framesBefore2_len (rng : ℕ → ℕ) (tickCount : ℚ → ℕ) (u : ℕ → ℚ)
    (il : Bool) (x y z : ℕ) :
    framesBeforeConfirm tickCount u il [x, y, z] 2 =
      (revealPre2 rng tickCount u il x y).length := by
  simp [framesBeforeConfirm, revealPre2, revealPre1, revealPre0, stage1, stage2,
    stage3, spinFrames_length, List.range_succ]
  omega

/-- C9: no frame emitted before the confirmation instant of die index
`i` depends on the final value of die `i` or any later die: with the same
random stream and clock, two final rolls agreeing on the first `i` dice
produce identical frame sequences up to that instant (and the frame at
that instant is the confirmation frame of die `i`). -/
theorem animate_no_leak (rng : ℕ → ℕ) (tickCount : ℚ → ℕ) (u : ℕ → ℚ)
    (il : Bool) (i : ℕ) (hi : i < 3) (f₁ f₂ : List ℕ)
    (h₁ : f₁.length = 3) (h₂ : f₂.length = 3)
    (hpre : f₁.take i = f₂.take i) :
    framesBeforeConfirm tickCount u il f₁ i =
      framesBeforeConfirm tickCount u il f₂ i ∧
    (animate_dice_roll rng tickCount u f₁ il).take
        (framesBeforeConfirm tickCount u il f₁ i) =
      (animate_dice_roll rng tickCount u f₂ il).take
        (framesBeforeConfirm tickCount u il f₂ i) ∧
    (animate_dice_roll rng tickCount u f₁ il)[
        framesBeforeConfirm tickCount u il f₁ i]? =
      some (confirmFrame (f₁.take (i + 1)) (3 - (i + 1))) := by
  obtain ⟨x₁, y₁, z₁, rfl⟩ := List.length_eq_three.mp h₁
  obtain ⟨x₂, y₂, z₂, rfl⟩ := List.length_eq_three.mp h₂
  interval_cases i
  · refine ⟨?_, ?_, ?_⟩
    · rw [framesBefore0_len rng tickCount u il x₁ y₁ z₁,
        framesBefore0_len rng tickCount u il x₂ y₂ z₂]
    · rw [animate_decomp0, animate_decomp0,
        framesBefore0_len rng tickCount u il x₁ y₁ z₁,
        framesBefore0_len rng tickCount u il x₂ y₂ z₂]
      exact take_append_left_eq _ _ _
    · rw [animate_decomp0, framesBefore0_len rng tickCount u il x₁ y₁ z₁,
        getElem_append_cons]
      simp
  · have hx : x₁ = x₂ := by simpa using hpre
    subst hx
    refine ⟨?_, ?_, ?_⟩
    · rw [framesBefore1_len rng tickCount u il x₁ y₁ z₁,
        framesBefore1_len rng tickCount u il x₁ y₂ z₂]
    · rw [animate_decomp1, animate_decomp1,
        framesBefore1_len rng tickCount u il x₁ y₁ z₁,
        framesBefore1_len rng tickCount u il x₁ y₂ z₂]
      exact take_append_left_eq _ _ _
    · rw [animate_decomp1, framesBefore1_len rng tickCount u il x₁ y₁ z₁,
        getElem_append_cons]
      simp
  · obtain ⟨rfl, rfl⟩ : x₁ = x₂ ∧ y₁ = y₂ := by simpa using hpre
    refine ⟨?_, ?_, ?_⟩
    · rw [framesBefore2_len rng tickCount u il x₁ y₁ z₁,
        framesBefore2_len rng tickCount u il x₁ y₁ z₂]
    · rw [animate_decomp2, animate_decomp2,
        framesBefore2_len rng tickCount u il x₁ y₁ z₁,
        framesBefore2_len rng tickCount u il x₁ y₁ z₂]
      exact take_append_left_eq _ _ _
    · rw [animate_decomp2, framesBefore2_len rng tickCount u il x₁ y₁ z₁,
        getElem_append_cons]
      simp

/-- Witness for C9: rolls [4,5,1] and [4,5,6] agree on their first two
dice, so the frames before the confirmation of die 2 coincide. -/
theorem animate_no_leak_witness :
    (animate_dice_roll (fun n => n % 6 + 1) (fun _ => 1) (fun _ => 2)
        [4, 5, 1] false).take
        (framesBeforeConfirm (fun _ => 1) (fun _ => 2) false [4, 5, 1] 2) =
      (animate_dice_roll (fun n => n % 6 + 1) (fun _ => 1) (fun _ => 2)
        [4, 5, 6] false).take
        (framesBeforeConfirm (fun _ => 1) (fun _ => 2) false [4, 5, 6] 2) :=
  (animate_no_leak (fun n => n % 6 + 1) (fun _ => 1) (fun _ => 2) false 2
    (by norm_num) [4, 5, 1] [4, 5, 6] rfl rfl rfl).2.1
end DiceAnalyzer
